import Mathlib

/-!
Verification development for the radlr/hydrocarbon bytecode recognizer engine
(`StateIterator` / `DebugIterator`).

The engine source is a TypeScript fetch-dispatch-execute loop over an
immutable `Uint32Array` bytecode image.  Every definition below is a direct
translation of the corresponding TypeScript method, with mutation turned into
explicit state passing and the unbounded driver loops indexed by fuel
(`Option` result, `none` = fuel exhausted).

External collaborators that are not part of the engine source
(`KernelStack`, `KernelToken`, `ByteReader`, the state-pointer mask
constants from the `common` package) are modelled from the specification,
and each such definition carries a doc comment saying so.
-/

namespace Radlr

/-! ## Spec-modelled external collaborators -/

/-- Modelled from the spec: `state_index_mask` from the common package is
missing from the sources.  Masks partition the 32-bit state-pointer space
into an index field (low bits) and disjoint flag fields. -/
def state_index_mask : Nat := 0xFFFFFF

/-- Modelled from the spec: `instruction_pointer_mask` from the common
package is missing from the sources; it extracts the instruction index
field of a state pointer. -/
def instruction_pointer_mask : Nat := 0xFFFFFF

/-- Modelled from the spec: `normal_state_mask` from the common package is
missing from the sources; flag bit marking a stack entry eligible in
normal (non-fail) mode.  The fail-mode gate is this mask shifted left by
one, as in the engine's `normal_state_mask << +fail_mode`. -/
def normal_state_mask : Nat := 1 <<< 26

/-- Modelled from the spec: `goto_state_mask` from the common package is
missing from the sources; flag bit marking goto-chain continuation
entries. -/
def goto_state_mask : Nat := 1 <<< 25

/-- Modelled from the spec: `skipped_scan_prod` from the common package is
missing from the sources; the sentinel token type denoting an ignorable
("skipped") production recognized by the scanner sub-engine. -/
def skipped_scan_prod : Nat := 9009

/-- Modelled from the spec: `KernelToken` from the common package is missing
from the sources.  A token descriptor
`{byte_offset, byte_length, codepoint_offset, codepoint_length,
line_number, line_offset, type}`. -/
structure KernelToken where
  byte_offset : Nat
  byte_length : Nat
  codepoint_offset : Nat
  codepoint_length : Nat
  line_number : Nat
  line_offset : Nat
  type : Nat
deriving DecidableEq, Repr

/-- Modelled from the spec: `KernelToken.new()` produces an all-zero token. -/
def KernelToken.new : KernelToken :=
  ⟨0, 0, 0, 0, 0, 0, 0⟩

/-- Modelled from the spec: `ByteReader` from the common package is missing
from the sources.  A read-only clonable cursor over an immutable byte
sequence. -/
structure ByteReader where
  input : List Nat
  cursor : Nat
deriving DecidableEq, Repr

/-- Modelled from the spec: advance the cursor forward by `n` bytes. -/
def ByteReader.next (r : ByteReader) (n : Nat) : ByteReader :=
  { r with cursor := r.cursor + n }

/-- Modelled from the spec: end-of-input test at the current cursor. -/
def ByteReader.END (r : ByteReader) : Bool :=
  r.input.length ≤ r.cursor

/-- Modelled from the spec: test whether a given byte offset is at (or past)
the end of the input. -/
def ByteReader.offset_at_end (r : ByteReader) (byte_offset : Nat) : Bool :=
  r.input.length ≤ byte_offset

/-- Modelled from the spec: the byte under the cursor. -/
def ByteReader.byte (r : ByteReader) : Nat :=
  r.input.getD r.cursor 0

/-- Modelled from the spec: the byte length of the codepoint under the
cursor, derived from the UTF-8 leading byte. -/
def ByteReader.codepoint_byte_length (r : ByteReader) : Nat :=
  let b := r.byte
  if b < 0xC0 then 1 else if b < 0xE0 then 2 else if b < 0xF0 then 3 else 4

/-- Modelled from the spec: the codepoint length consumed by one codepoint
(always one codepoint). -/
def ByteReader.codepoint_length (_r : ByteReader) : Nat := 1

/-- Modelled from the spec: the codepoint under the cursor; the exact
decoding is immaterial to the engine, which only compares it against
compiler-supplied literals. -/
def ByteReader.codepoint (r : ByteReader) : Nat :=
  r.byte

/-- Modelled from the spec: a coarse character class of the codepoint under
the cursor (identifier / digit / space / newline / symbol). -/
def ByteReader.cls (r : ByteReader) : Nat :=
  let c := r.codepoint
  if c = 10 then 1
  else if c = 32 ∨ c = 9 then 2
  else if 48 ≤ c ∧ c ≤ 57 then 3
  else if (65 ≤ c ∧ c ≤ 90) ∨ (97 ≤ c ∧ c ≤ 122) then 4
  else 5

/-- Modelled from the spec: cursor save/restore; repositions the cursor at a
token's byte offset, reporting success. -/
def ByteReader.setCursorTo (r : ByteReader) (t : KernelToken) : Bool × ByteReader :=
  (true, { r with cursor := t.byte_offset })

/-- Modelled from the spec: number of newline bytes strictly before the
cursor. -/
def ByteReader.line_count (r : ByteReader) : Nat :=
  ((r.input.take r.cursor).filter (fun b => b = 10)).length

/-- Modelled from the spec: byte offset just after the last newline before
the cursor (0 when none). -/
def ByteReader.line_offset (r : ByteReader) : Nat :=
  ((r.input.take r.cursor).enum.filter (fun p => p.2 = 10)).foldl
    (fun _ p => p.1 + 1) 0

/-! ## Bytecode image access

A `Uint32Array` read out of range yields `undefined`, and every bitwise
use of `undefined` in the engine coerces it to `0`; reads at negative
indices behave the same way, so `wordAt` returns `0` outside the image. -/

/-- One 32-bit word of the bytecode image, by absolute word index. -/
def wordAt (bc : List Nat) (i : Int) : Nat :=
  if 0 ≤ i then bc.getD i.toNat 0 else 0

/-- JS `x & 0xFFFF` on a (possibly negative) integer: the low 16 bits of the
two's complement representation. -/
def low16 (x : Int) : Int :=
  x.emod 65536

/-! ## ParseAction (`ParseActionType` tagged union) -/

/-- The `ParseAction` tagged union emitted through the caller-supplied
sink.  Numeric payloads that the engine computes by subtraction are `Int`
(JS numbers can go negative there); the rest are `Nat`. -/
inductive ParseAction where
  | reduce (body : Nat) (length : Int) (production : Int)
  | shift (token : KernelToken)
  | skip (offset : Nat) (length : Int) (line : Nat) (token_type : Nat)
  | accept
  | error (last_state : Int) (tk_type : Nat) (tk_offset : Nat) (tk_length : Nat)
      (production : Int)
  | fork (pointer : Nat)
  | token (token : KernelToken)
  | lazy (state_pointer : Nat) (line : Nat) (offset : Nat) (length : Nat)
deriving DecidableEq, Repr

/-- Terminal actions: `Accept`, `Error`, and (scanner role) `Token`. -/
def ParseAction.isTerminal : ParseAction → Bool
  | .accept => true
  | .error _ _ _ _ _ => true
  | .token _ => true
  | _ => false

/-! ## Engine state (`StateIterator` fields)

The `KernelStack` (from `stack.js`, missing from the sources) is modelled
from the spec as a list of (state-pointer, symbol-accumulator-snapshot)
pairs with its top at the head; `pop_state` takes the head, `push_state`
conses, `read_state` peeks (0 when empty, an unwritten slot), and
`swap_state` replaces the top state pointer in place. -/

/-- The mutable fields of a `StateIterator`. -/
structure Engine where
  stack : List (Nat × Int)
  reader : ByteReader
  tokens : List KernelToken
  symbol_accumulator : Int
  production_id : Int
  SCANNER : Bool
deriving DecidableEq, Repr

/-- A fresh `StateIterator` (constructor): entry pointer on the stack, two
fresh tokens, accumulator 0, production −1. -/
def Engine.init (reader : ByteReader) (entry_pointer : Nat) (SCANNER : Bool) : Engine :=
  { stack := [(entry_pointer, 0)]
    reader := reader
    tokens := [KernelToken.new, KernelToken.new]
    symbol_accumulator := 0
    production_id := -1
    SCANNER := SCANNER }

/-- `emitShift`: bump the symbol accumulator, emit a `Skip` when the
lookahead token is non-contiguous with the previous token's end, then emit
`Shift` with the lookahead token. -/
def emitShift (e : Engine) : Engine × List ParseAction :=
  let token := e.tokens.getD 1 KernelToken.new
  let prev_token := e.tokens.getD 0 KernelToken.new
  let shift := [ParseAction.shift token]
  let acts :=
    if prev_token.byte_offset + prev_token.byte_length ≠ token.byte_offset then
      ParseAction.skip prev_token.codepoint_offset
        ((token.codepoint_offset : Int) -
          ((prev_token.codepoint_length : Int) + (prev_token.codepoint_offset : Int)))
        prev_token.line_number 0 :: shift
    else shift
  ({ e with symbol_accumulator := e.symbol_accumulator + 1 }, acts)

/-- `consume`: optionally zero the lookahead lengths (bit 0 of the
instruction), in scanner role silently advance the cursor and roll the
lookahead token forward, in parser role first `emitShift` then advance and
make the current token impersonate the advanced lookahead. -/
def consume (e : Engine) (instruction : Nat) : Engine × List ParseAction :=
  let token0 := e.tokens.getD 1 KernelToken.new
  let token1 :=
    if instruction &&& 1 = 1 then
      { token0 with codepoint_length := 0, byte_length := 0 }
    else token0
  let advanced : KernelToken :=
    { token1 with
      codepoint_offset := token1.codepoint_offset + token1.codepoint_length
      byte_offset := token1.byte_offset + token1.byte_length
      codepoint_length := 0
      byte_length := 0
      type := 0 }
  if e.SCANNER then
    ({ e with
        reader := e.reader.next token1.byte_length
        tokens := e.tokens.set 1 advanced }, [])
  else
    let e1 := { e with tokens := e.tokens.set 1 token1 }
    let p := emitShift e1
    ({ p.1 with
        reader := p.1.reader.next token1.byte_length
        tokens := (p.1.tokens.set 1 advanced).set 0 advanced }, p.2)

/-- `emitReduce`: emit a `Reduce` action with the current production id. -/
def emitReduce (e : Engine) (symbol_length : Int) (body_id : Nat) : List ParseAction :=
  [ParseAction.reduce body_id symbol_length e.production_id]

/-- `reduce`: fixed encoding `{length, rule_id}`, or dynamic encoding
(sentinel rule id `0xFFFF`) with length `symbol_accumulator −
(recover_data & 0xFFFF)`; only the fixed encoding adjusts the
accumulator.  If the following bytecode word is tagged `SET_PRODUCTION`
it is consumed inline.  Returns (engine, actions, next index). -/
def reduce (bc : List Nat) (e : Engine) (instruction : Nat) (index : Nat)
    (recover_data : Int) : Engine × List ParseAction × Nat :=
  let body_id := instruction &&& 0xFFFF
  let length : Nat := (instruction >>> 16) &&& 0xFFF
  let p : Engine × List ParseAction :=
    if body_id &&& 0xFFFF = 0xFFFF then
      let accumulated_symbols : Int := e.symbol_accumulator - low16 recover_data
      let fn_id := (instruction >>> 16) &&& 0xFFF
      (e, emitReduce e accumulated_symbols fn_id)
    else
      ({ e with symbol_accumulator := e.symbol_accumulator - ((length : Int) - 1) },
        emitReduce e length body_id)
  if wordAt bc index &&& 0xF0000000 = 0x30000000 then
    ({ p.1 with production_id := ((wordAt bc index &&& 0xFFFFFFF : Nat) : Int) },
      p.2, index + 1)
  else
    (p.1, p.2, index)

/-- `set_production`: set the current production id from the operand bits. -/
def set_production (e : Engine) (instruction : Nat) : Engine :=
  { e with production_id := ((instruction &&& 0xFFFFFFF : Nat) : Int) }

/-- `goto`'s chain-pushing loop: collect words tagged `GOTO` (top nibble 2)
starting at `index`, each paired with the accumulator snapshot `a`; stops
at the first differently-tagged word (an out-of-range read yields 0 and
stops the chain). -/
def gotoChain (bc : List Nat) (a : Int) : Nat → Nat → List (Nat × Int) × Nat
  | 0, index => ([], index)
  | fuel + 1, index =>
    if wordAt bc (index : Int) &&& 0xF0000000 = 0x20000000 then
      let p := gotoChain bc a fuel (index + 1)
      ((wordAt bc (index : Int), a) :: p.1, p.2)
    else
      ([], index)

/-- `goto`: push the target StatePointer (the raw instruction word) plus the
current `symbol_accumulator`, then push any immediately-following
goto-chain continuation words with the same snapshot.  (The chain budget
`bc.length + 1` can never be exhausted: each chain step reads an in-range
word at a strictly larger index, and an out-of-range read yields 0 and
ends the chain.) -/
def goto (bc : List Nat) (e : Engine) (instruction : Nat) (index : Nat) :
    Engine × Nat :=
  let p := gotoChain bc e.symbol_accumulator (bc.length + 1) index
  ({ e with stack := p.1.reverse ++ (instruction, e.symbol_accumulator) :: e.stack },
    p.2)

/-- `repeat`: rewind the instruction pointer backward by the encoded offset.
(The JS value can go negative only with a malformed offset; the model uses
truncated subtraction.) -/
def repeatInstr (index instruction : Nat) : Nat :=
  index - (instruction &&& 0xFFFFFFF)

/-- `push_fail_state`: push the alternate state pointer (with the current
accumulator snapshot) unless the stack top already points at the same
target, in which case it is swapped in place (keeping the top's meta
slot). -/
def push_fail_state (e : Engine) (instruction : Nat) : Engine :=
  let fail_state_pointer := instruction
  let current_state :=
    (match e.stack with | [] => 0 | (s, _) :: _ => s) &&& instruction_pointer_mask
  if current_state ≠ fail_state_pointer &&& instruction_pointer_mask then
    { e with stack := (fail_state_pointer, e.symbol_accumulator) :: e.stack }
  else
    { e with stack :=
        match e.stack with
        | [] => []
        | (_, m) :: rest => (fail_state_pointer, m) :: rest }

/-- `pass` (opcode 0 and unknown opcodes): terminate the block signalling
"not recovered". -/
def pass : Bool := false

/-- `advanced_return` (opcode 15): return `fail_mode` unchanged when bit 0
is set, else force "recovered" (`true`). -/
def advanced_return (instruction : Nat) (fail_mode : Bool) : Bool :=
  if instruction &&& 1 = 1 then fail_mode else true

/-- `set_token`: optionally force a consume (bit 24); with bit 27 set the
production/token type and current-token span, else override the lookahead
token's length.  (The two span subtractions are nonnegative whenever the
lookahead does not precede the current token; modelled with truncated
subtraction.) -/
def set_token (e : Engine) (instruction : Nat) (index : Nat) :
    Engine × List ParseAction × Nat :=
  let value := instruction &&& 0xFFFFFF
  let p := if instruction &&& 0x01000000 ≠ 0 then consume e 0 else (e, [])
  let e1 := p.1
  if instruction &&& 0x08000000 ≠ 0 then
    let t0 := e1.tokens.getD 0 KernelToken.new
    let t1 := e1.tokens.getD 1 KernelToken.new
    let t0n := { t0 with
      type := value
      byte_length := t1.byte_offset - t0.byte_offset
      codepoint_length := t1.codepoint_offset - t0.codepoint_offset }
    ({ e1 with production_id := (value : Int), tokens := e1.tokens.set 0 t0n },
      p.2, index)
  else
    let t1 := e1.tokens.getD 1 KernelToken.new
    let t1n := { t1 with codepoint_length := value, byte_length := value }
    ({ e1 with tokens := e1.tokens.set 1 t1n }, p.2, index)

/-- `assert_consume`: compare the upcoming input's class / codepoint / byte
(mode bits 24-27) with the inline literal; on mismatch return the absolute
word index 2 (without advancing the reader); on match run `consume 0` and
return the unchanged next index. -/
def assert_consume (e : Engine) (index instruction : Nat) :
    Engine × List ParseAction × Nat :=
  let mode := instruction &&& 0x0F000000
  let val := instruction &&& 0x00FFFFFF
  let token := e.tokens.getD 1 KernelToken.new
  let cp_probe := { token with
    byte_length := e.reader.codepoint_byte_length
    codepoint_length := e.reader.codepoint_length }
  let byte_probe := { token with byte_length := 1, codepoint_length := 1 }
  if mode = 0x00000000 then
    let e1 := { e with tokens := e.tokens.set 1 cp_probe }
    if val ≠ e.reader.cls then (e1, [], 2)
    else let p := consume e1 0; (p.1, p.2, index)
  else if mode = 0x01000000 then
    let e1 := { e with tokens := e.tokens.set 1 cp_probe }
    if val ≠ e.reader.codepoint then (e1, [], 2)
    else let p := consume e1 0; (p.1, p.2, index)
  else if mode = 0x02000000 then
    let e1 := { e with tokens := e.tokens.set 1 byte_probe }
    if val ≠ e.reader.byte then (e1, [], 2)
    else let p := consume e1 0; (p.1, p.2, index)
  else
    let p := consume e 0
    (p.1, p.2, index)

/-- `try_lazy` (opcode 13): inert in the reference (body commented out);
skips its two operand words. -/
def try_lazy (index : Nat) : Nat :=
  index + 2

/-- `fork` (opcode 6): invoke the fork delegate with the current block
pointer; replay a non-empty result and continue at word 1, an empty
result aborts to word 0. -/
def forkInstr (forkH : Nat → List ParseAction) (e : Engine) (index : Nat) :
    Engine × List ParseAction × Nat :=
  let buffer := forkH (index - 1)
  if buffer.length > 0 then (e, buffer, 1) else (e, [], 0)

/-! ## Input discriminant resolution (`get_input_value`)

The nested scanner engine invocation `this.scanner(token, pointer)` is
abstracted as an oracle `ByteReader → Nat → KernelToken → KernelToken`
(outer reader, lexer entry pointer, candidate token ↦ resolved token);
the nested engine is this very engine run in scanner role and emits
nothing through the outer sink. -/

/-- The primary-lexer switch of `get_input_value` (the part shared by the
truncating and non-truncating paths). -/
def gvPrimary (oracle : ByteReader → Nat → KernelToken → KernelToken)
    (e : Engine) (input_type scanner_start_pointer : Nat) : Engine × Int :=
  let token := e.tokens.getD 1 KernelToken.new
  let cp_probe := { token with
    byte_length := e.reader.codepoint_byte_length
    codepoint_length := e.reader.codepoint_length }
  let byte_probe := { token with byte_length := 1, codepoint_length := 1 }
  if input_type = 1 then
    let nt := oracle e.reader scanner_start_pointer token
    ({ e with tokens := e.tokens.set 1 nt }, (nt.type : Int))
  else if input_type = 2 then
    ({ e with tokens := e.tokens.set 1 cp_probe }, (e.reader.cls : Int))
  else if input_type = 3 then
    ({ e with tokens := e.tokens.set 1 cp_probe }, (e.reader.codepoint : Int))
  else if input_type = 4 then
    ({ e with tokens := e.tokens.set 1 byte_probe }, (e.reader.byte : Int))
  else
    (e, 0)

/-- The peek-lexer switch of `get_input_value`: append a secondary peek
token and resolve it. -/
def gvPeek (oracle : ByteReader → Nat → KernelToken → KernelToken)
    (e : Engine) (input_type scanner_start_pointer : Nat) : Engine × Int :=
  let token := e.tokens.getD (e.tokens.length - 1) KernelToken.new
  let reader := e.reader.next token.byte_length
  if reader.END then
    ({ e with reader := reader }, 0)
  else
    let new_token :=
      { token with type := 0, byte_offset := token.byte_offset + token.byte_length }
    let cp_probe := { new_token with
      byte_length := reader.codepoint_byte_length
      codepoint_length := reader.codepoint_length }
    let byte_probe := { new_token with byte_length := 1, codepoint_length := 1 }
    if input_type = 1 then
      let nt := oracle reader scanner_start_pointer new_token
      ({ e with reader := reader, tokens := e.tokens ++ [nt] }, (nt.type : Int))
    else if input_type = 2 then
      ({ e with reader := reader, tokens := e.tokens ++ [cp_probe] },
        (reader.cls : Int))
    else if input_type = 3 then
      ({ e with reader := reader, tokens := e.tokens ++ [cp_probe] },
        (reader.codepoint : Int))
    else if input_type = 4 then
      ({ e with reader := reader, tokens := e.tokens ++ [byte_probe] },
        (reader.byte : Int))
    else
      ({ e with reader := reader, tokens := e.tokens ++ [new_token] }, 0)

/-- `get_input_value`: production id when the input kind is "production",
otherwise a lexer-derived value via the primary lookahead (default) or a
secondary peek token (`token_transition = 1`). -/
def get_input_value (oracle : ByteReader → Nat → KernelToken → KernelToken)
    (e : Engine) (input_type token_transition scanner_start_pointer : Nat) :
    Engine × Int :=
  if input_type > 0 then
    if token_transition = 1 then
      gvPeek oracle e input_type scanner_start_pointer
    else
      if e.reader.END then (e, 1)
      else
        let token := e.tokens.getD 1 KernelToken.new
        if e.tokens.length > 2 then
          let tokens2 := e.tokens.take 2
          let p := e.reader.setCursorTo token
          if ¬ p.1 then ({ e with tokens := tokens2, reader := p.2 }, 0)
          else
            gvPrimary oracle
              { e with
                tokens := tokens2.set 1 { token with type := 0 }
                reader := p.2 }
              input_type scanner_start_pointer
        else
          gvPrimary oracle e input_type scanner_start_pointer
  else
    (e, e.production_id)

/-! ## Jump-table dispatch -/

/-- The pure outcome of an `INDEX_JUMP` (opcode 9) for a given discriminant:
subtract the basis; inside `[0, number_of_rows)` jump to the row block,
else fall through to the default block at the start of the table. -/
def indexJumpTarget (bc : List Nat) (index instruction : Nat)
    (input_value : Int) : Nat :=
  let basis := instruction &&& 0xFFFF
  let table_data := wordAt bc ((index : Int) + 1)
  let value : Int := input_value - basis
  let number_of_rows := table_data >>> 16
  let row_size := table_data &&& 0xFFFF
  if 0 ≤ value ∧ value < (number_of_rows : Int) then
    (index + 2) + value.toNat * row_size + row_size
  else
    index + 2

/-- The open-addressing probe loop of `HASH_JUMP`: follow the stored signed
steps until a cell's value matches the discriminant (jump to its
instruction offset) or a zero step is hit (jump to the trailing default
block).  Fuel-indexed: `none` means the probe did not settle within
`fuel` steps (possible only for a malformed table). -/
def hashProbe (bc : List Nat) (hash_table_start ifs_start ifs_size : Nat)
    (input_value : Int) : Nat → Int → Option Nat
  | 0, _ => none
  | fuel + 1, hash_index =>
    let cell := wordAt bc ((hash_table_start : Int) + hash_index)
    let value := cell &&& 0x7FF
    let next : Int := (((cell >>> 22) &&& 0x3FF : Nat) : Int) - 512
    if (value : Int) = input_value then
      some (ifs_start + ((cell >>> 11) &&& 0x7FF))
    else if next = 0 then
      some (ifs_start + ifs_size)
    else
      hashProbe bc hash_table_start ifs_start ifs_size input_value fuel
        (hash_index + next)

/-- The pure outcome of a `HASH_JUMP` (opcode 10) for a given discriminant.
The initial probe position is `input_value & modulus` with
`modulus = (1 << bits) − 1`; on a (possibly negative) JS integer that is
the value modulo `2^bits`. -/
def hashJumpTarget (bc : List Nat) (index instruction : Nat)
    (input_value : Int) (fuel : Nat) : Option Nat :=
  let table_data := wordAt bc ((index : Int) + 1)
  let modbits := (table_data >>> 16) &&& 0xFFFF
  let table_size := table_data &&& 0xFFFF
  let hash_table_start := index + 2
  let instruction_field_start := hash_table_start + table_size
  let instruction_field_size := instruction &&& 0xFFFF
  hashProbe bc hash_table_start instruction_field_start instruction_field_size
    input_value fuel (input_value.emod ((2 : Int) ^ modbits))

/-- `index_jump` as executed by the engine: resolve the discriminant
(effectful), then transfer control per `indexJumpTarget`. -/
def index_jump (bc : List Nat) (oracle : ByteReader → Nat → KernelToken → KernelToken)
    (e : Engine) (index instruction : Nat) : Engine × Nat :=
  let scanner_start_pointer := wordAt bc (index : Int)
  let input_type := (instruction >>> 22) &&& 0x7
  let lexer_type := (instruction >>> 26) &&& 0x3
  let p := get_input_value oracle e input_type lexer_type scanner_start_pointer
  (p.1, indexJumpTarget bc index instruction p.2)

/-- `hash_jump` as executed by the engine: resolve the discriminant
(effectful), then transfer control per `hashJumpTarget`. -/
def hash_jump (bc : List Nat) (oracle : ByteReader → Nat → KernelToken → KernelToken)
    (e : Engine) (index instruction : Nat) (fuel : Nat) : Option (Engine × Nat) :=
  let input_type := (instruction >>> 22) &&& 0x7
  let lexer_type := (instruction >>> 26) &&& 0x3
  let scanner_start_pointer := wordAt bc (index : Int)
  let p := get_input_value oracle e input_type lexer_type scanner_start_pointer
  (hashJumpTarget bc index instruction p.2 fuel).map (fun i => (p.1, i))

/-! ## SCAN_TO (opcode 7) -/

/-- The inline target-id scan of `scan_to`: does any word in
`bc[start..fin)` equal the resolved token type? -/
def matchesTargets (bc : List Nat) (start fin ty : Nat) : Bool :=
  (List.range (fin - start)).any (fun k => wordAt bc ((start + k : Nat) : Int) = ty)

/-- The scanning loop of `scan_to`: repeatedly resolve a token at the probe
position (via the scanner oracle); stop on a target match, report
exhaustion (`some none`) when the probe reaches the end of input, else
advance the probe past the token (or one byte for a zero-length token)
and continue.  (The `codepoint_offset` self-addition reproduces the
source's `temp_token.codepoint_offset += token.codepoint_offset`.) -/
def scanToLoop (bc : List Nat) (oracle : ByteReader → Nat → KernelToken → KernelToken)
    (reader : ByteReader) (scanner_index start fin : Nat) :
    Nat → KernelToken → Option (Option KernelToken)
  | 0, _ => none
  | fuel + 1, temp =>
    let token := oracle reader scanner_index temp
    if matchesTargets bc start fin token.type then some (some token)
    else if reader.offset_at_end token.byte_offset then some none
    else
      let temp1 :=
        if token.byte_length > 0 then
          { token with
            byte_offset := token.byte_offset + token.byte_length
            codepoint_offset := token.codepoint_offset + token.codepoint_offset }
        else
          { token with
            byte_offset := token.byte_offset + 1
            codepoint_offset := token.codepoint_offset + 1 }
      scanToLoop bc oracle reader scanner_index start fin fuel
        { temp1 with byte_length := 0, codepoint_length := 0 }

/-- `scan_to`: forward or backward scan until the resolved token type is in
the inline target list.  On success, forward mode commits the probe into
the lookahead token and control continues after the inline table; on
input exhaustion control transfers to the absolute word index 1 and the
tokens are left untouched. -/
def scan_to (bc : List Nat) (oracle : ByteReader → Nat → KernelToken → KernelToken)
    (e : Engine) (index instruction : Nat) (fuel : Nat) : Option (Engine × Nat) :=
  let length := instruction &&& 0xFFFF
  let scanner_index := wordAt bc (index : Int)
  let temp0 := { (e.tokens.getD 1 KernelToken.new) with type := 0 }
  let prev_token := e.tokens.getD 0 KernelToken.new
  let index1 := index + 1
  let scan_back := instruction &&& 0x00100000 > 0
  let start := index1
  let fin := index1 + length
  let ret_index := index1 + length
  let temp1 :=
    if scan_back then
      { temp0 with
        byte_offset := prev_token.byte_offset
        codepoint_offset := prev_token.codepoint_offset
        byte_length := 0
        codepoint_length := 0 }
    else temp0
  match scanToLoop bc oracle e.reader scanner_index start fin fuel temp1 with
  | none => none
  | some none => some (e, 1)
  | some (some t) =>
    if ¬ scan_back then some ({ e with tokens := e.tokens.set 1 t }, ret_index)
    else some (e, ret_index)

/-! ## The per-state instruction block executor (`instruction_executor`)

One decode/execute loop walking the image from the block's address until a
terminal instruction (PASS / RETURN) hands `fail_mode` back to the driver.
`recover_data` is the popped stack entry's meta slot, fixed at block
entry.  Opcode 8 (NOOP) has no `break` in the source switch and falls
through into opcode 9 (INDEX_JUMP); unknown opcodes run the `default`
branch, i.e. PASS. -/

/-- The instruction decode/execute loop, fuel-indexed.  Returns the engine,
the actions emitted by the block, and the block's resulting fail-mode
flag. -/
def instrLoop (bc : List Nat) (oracle : ByteReader → Nat → KernelToken → KernelToken)
    (forkH : Nat → List ParseAction) :
    Nat → Engine → Nat → Int → Bool → Option (Engine × List ParseAction × Bool)
  | 0, _, _, _, _ => none
  | fuel + 1, e, index0, recover_data, fail_mode =>
    let instruction := wordAt bc (index0 : Int)
    let index := index0 + 1
    match instruction >>> 28 with
    | 1 =>
      let p := consume e instruction
      (instrLoop bc oracle forkH fuel p.1 index recover_data fail_mode).map
        (fun r => (r.1, p.2 ++ r.2.1, r.2.2))
    | 2 =>
      let p := goto bc e instruction index
      instrLoop bc oracle forkH fuel p.1 p.2 recover_data fail_mode
    | 3 =>
      instrLoop bc oracle forkH fuel (set_production e instruction) index
        recover_data fail_mode
    | 4 =>
      let p := reduce bc e instruction index recover_data
      (instrLoop bc oracle forkH fuel p.1 p.2.2 recover_data fail_mode).map
        (fun r => (r.1, p.2.1 ++ r.2.1, r.2.2))
    | 5 =>
      let p := set_token e instruction index
      (instrLoop bc oracle forkH fuel p.1 p.2.2 recover_data fail_mode).map
        (fun r => (r.1, p.2.1 ++ r.2.1, r.2.2))
    | 6 =>
      let p := forkInstr forkH e index
      (instrLoop bc oracle forkH fuel p.1 p.2.2 recover_data fail_mode).map
        (fun r => (r.1, p.2.1 ++ r.2.1, r.2.2))
    | 7 =>
      match scan_to bc oracle e index instruction fuel with
      | none => none
      | some p => instrLoop bc oracle forkH fuel p.1 p.2 recover_data fail_mode
    | 8 =>
      let p := index_jump bc oracle e index instruction
      instrLoop bc oracle forkH fuel p.1 p.2 recover_data fail_mode
    | 9 =>
      let p := index_jump bc oracle e index instruction
      instrLoop bc oracle forkH fuel p.1 p.2 recover_data fail_mode
    | 10 =>
      match hash_jump bc oracle e index instruction fuel with
      | none => none
      | some p => instrLoop bc oracle forkH fuel p.1 p.2 recover_data fail_mode
    | 11 =>
      instrLoop bc oracle forkH fuel (push_fail_state e instruction) index
        recover_data fail_mode
    | 12 =>
      instrLoop bc oracle forkH fuel e (repeatInstr index instruction)
        recover_data fail_mode
    | 13 =>
      instrLoop bc oracle forkH fuel e (try_lazy index) recover_data fail_mode
    | 14 =>
      let p := assert_consume e index instruction
      (instrLoop bc oracle forkH fuel p.1 p.2.2 recover_data fail_mode).map
        (fun r => (r.1, p.2.1 ++ r.2.1, r.2.2))
    | 15 => some (e, [], advanced_return instruction fail_mode)
    | _ => some (e, [], pass)

/-! ## The driver loop (`start`) -/

/-- The single finalize action emitted when the execution stack is empty:
scanner role emits `Token`; otherwise `Error` under fail mode, `Accept`
when the goal production is reached or the input is exhausted at the
lookahead's offset, else `Error`. -/
def finalizeAction (e : Engine) (fail_mode : Bool) (last_good_state root : Int) :
    ParseAction :=
  let token := e.tokens.getD 0 KernelToken.new
  let advanced := e.tokens.getD 1 KernelToken.new
  if e.SCANNER then
    ParseAction.token token
  else if fail_mode then
    ParseAction.error last_good_state advanced.type advanced.codepoint_offset
      advanced.codepoint_length e.production_id
  else if 0 ≤ root ∧ e.production_id = root then
    ParseAction.accept
  else if e.reader.offset_at_end advanced.byte_offset then
    ParseAction.accept
  else
    ParseAction.error last_good_state advanced.type advanced.codepoint_offset
      advanced.codepoint_length e.production_id

/-- The driver loop of `start`: pop state pointers until the stack empties,
finalize, and return the emitted action sequence.  Popped entries are
executed only when their flags pass the active mode gate
(`normal_state_mask << fail_mode`); `last_good_state` tracks the last
pointer popped outside fail mode. -/
def startRun (bc : List Nat) (oracle : ByteReader → Nat → KernelToken → KernelToken)
    (forkH : Nat → List ParseAction) (root : Int) :
    Nat → Engine → Bool → Int → Option (List ParseAction)
  | 0, _, _, _ => none
  | fuel + 1, e, fail_mode, last_good_state =>
    match e.stack with
    | [] => some [finalizeAction e fail_mode last_good_state root]
    | (state, meta) :: rest =>
      if state > 0 then
        if state &&& (normal_state_mask <<< (if fail_mode then 1 else 0)) ≠ 0 then
          match instrLoop bc oracle forkH fuel { e with stack := rest }
              (state &&& state_index_mask) meta fail_mode with
          | none => none
          | some r =>
            (startRun bc oracle forkH root fuel r.1 r.2.2
              (if fail_mode then last_good_state else (state : Int))).map
              (fun acts => r.2.1 ++ acts)
        else
          startRun bc oracle forkH root fuel { e with stack := rest } fail_mode
            (if fail_mode then last_good_state else (state : Int))
      else
        startRun bc oracle forkH root fuel { e with stack := rest } fail_mode
          last_good_state

/-- `StateIterator.start`: in scanner role stamp the current token's line
info from the reader, then run the driver loop with `fail_mode = false`
and `last_good_state = −1`. -/
def start (bc : List Nat) (oracle : ByteReader → Nat → KernelToken → KernelToken)
    (forkH : Nat → List ParseAction) (e : Engine) (root : Int) (fuel : Nat) :
    Option (List ParseAction) :=
  let e1 :=
    if e.SCANNER then
      let t0 := e.tokens.getD 0 KernelToken.new
      let t0n := { t0 with
        line_number := e.reader.line_count
        line_offset := e.reader.line_offset }
      { e with tokens := e.tokens.set 0 t0n }
    else e
  startRun bc oracle forkH root fuel e1 false (-1)

/-! ## Scanner sub-engine wrapper (`StateIterator.scanner`)

The wrapper constructs a nested scanner-role engine and repeatedly runs
its driver loop; each completed nested session emits exactly one `Token`
result (the abstraction quantified over below as the list of session
result tokens).  The handler logic applied to each session result is
translated here verbatim. -/

/-- The loop state of the scanner wrapper: the outer token being resolved,
the nested engine's stack and token pair, and the `ACTIVE` flag. -/
structure ScanLoop where
  current : KernelToken
  nested_stack : List (Nat × Int)
  nested_tokens : List KernelToken
  ACTIVE : Bool
deriving DecidableEq, Repr

/-- The `scanner` handler applied to one nested-session `Token` result: a
sentinel (`skipped_scan_prod`) token advances the outer token past the
matched span, resets the nested stack to the lexer entry pointer and
rolls the nested current token forward; any other token commits its
span/type into the outer token and stops the loop. -/
def handleScanToken (scanner_start_pointer : Nat) (st : ScanLoop)
    (t : KernelToken) : ScanLoop :=
  if t.type = skipped_scan_prod then
    let cur := { st.current with
      codepoint_offset := st.current.codepoint_offset + t.codepoint_length
      byte_offset := st.current.byte_offset + t.byte_length
      line_offset := t.line_offset
      line_number := t.line_number }
    { st with
      current := cur
      nested_stack := [(scanner_start_pointer, 0)]
      nested_tokens :=
        st.nested_tokens.set 0 (st.nested_tokens.getD 1 KernelToken.new) }
  else
    let cur := { st.current with
      codepoint_length := t.codepoint_length
      byte_length := t.byte_length
      type := t.type
      line_offset := t.line_offset
      line_number := t.line_number }
    { st with current := cur, ACTIVE := false }

/-- The `while (ACTIVE)` loop of `scanner` over the nested sessions' result
tokens: `none` when the sessions run out while still active. -/
def scannerResolve (scanner_start_pointer : Nat) :
    List KernelToken → ScanLoop → Option ScanLoop
  | [], st => if st.ACTIVE then none else some st
  | t :: rest, st =>
    if st.ACTIVE then
      scannerResolve scanner_start_pointer rest
        (handleScanToken scanner_start_pointer st t)
    else some st

/-! ## DebugIterator (`next_state`) -/

/-- A `DebugState` snapshot produced by the step controller. -/
structure DebugState where
  state : Nat
  ACTIVE : Bool
  stack : List (Nat × Int)
  tokens : List KernelToken
  symbol_accumulator : Int
  production_id : Int
  fail_mode : Bool
  last_good_state : Int
  byte_reader : ByteReader
  actions : List ParseAction
deriving DecidableEq, Repr

/-- `DebugIterator.next_state`: restore reader / production id / tokens /
stack from the prior snapshot (the iterator's own `symbol_accumulator` is
not restored, exactly as in the source), execute one pop-and-maybe-execute
cycle of the driver loop, and package the resulting snapshot.  Returns
the iterator's final mutable state alongside the snapshot. -/
def next_state (bc : List Nat) (oracle : ByteReader → Nat → KernelToken → KernelToken)
    (forkH : Nat → List ParseAction) (it : Engine) (prev : DebugState)
    (goal_production : Int) (fuel : Nat) : Option (Engine × DebugState) :=
  let fail_mode := prev.fail_mode
  let last_good_state := prev.last_good_state
  let it1 := { it with
    reader := prev.byte_reader
    production_id := prev.production_id
    tokens := prev.tokens
    stack := prev.stack }
  let ds0 : DebugState :=
    { state := 0
      ACTIVE := true
      fail_mode := false
      last_good_state := -1
      tokens := it1.tokens
      actions := []
      production_id := -1
      symbol_accumulator := -1
      byte_reader := it1.reader
      stack := it1.stack }
  match it1.stack with
  | [] =>
    let a := finalizeAction it1 fail_mode last_good_state goal_production
    some (it1, { ds0 with
      actions := [a]
      ACTIVE := false
      production_id := it1.production_id
      stack := it1.stack
      tokens := it1.tokens
      byte_reader := it1.reader })
  | (state, meta) :: rest =>
    let it2 := { it1 with stack := rest }
    let ds1 := { ds0 with state := state &&& state_index_mask }
    if state > 0 then
      let ds2 := if fail_mode then ds1 else { ds1 with last_good_state := (state : Int) }
      if state &&& (normal_state_mask <<< (if fail_mode then 1 else 0)) ≠ 0 then
        match instrLoop bc oracle forkH fuel it2 (state &&& state_index_mask)
            meta fail_mode with
        | none => none
        | some r =>
          some (r.1, { ds2 with
            actions := r.2.1
            fail_mode := r.2.2
            production_id := r.1.production_id
            stack := r.1.stack
            tokens := r.1.tokens
            byte_reader := r.1.reader })
      else
        some (it2, { ds2 with
          production_id := it2.production_id
          stack := it2.stack
          tokens := it2.tokens
          byte_reader := it2.reader })
    else
      some (it2, { ds1 with
        production_id := it2.production_id
        stack := it2.stack
        tokens := it2.tokens
        byte_reader := it2.reader })

/-! ## Derived notions used by the verified properties -/

/-- A trace contains exactly one terminal action and it comes last. -/
def oneTerminalLast (acts : List ParseAction) : Prop :=
  ∃ body t, acts = body ++ [t] ∧ t.isTerminal = true ∧
    ∀ a ∈ body, a.isTerminal = false

/-- An accumulator-relevant event: a CONSUME or a REDUCE instruction
(each applied through the engine's own handler). -/
inductive AccEvent where
  | consumeEv (instruction : Nat)
  | reduceEv (instruction : Nat) (index : Nat) (recover : Int)
deriving DecidableEq, Repr

/-- Apply one accumulator event through the engine's own handler. -/
def applyAccEvent (bc : List Nat) (e : Engine) : AccEvent → Engine
  | .consumeEv i => (consume e i).1
  | .reduceEv i idx r => (reduce bc e i idx r).1

/-- Apply a sequence of Consume/Reduce events (no intervening GOTO). -/
def applyAccEvents (bc : List Nat) : Engine → List AccEvent → Engine
  | e, [] => e
  | e, ev :: rest => applyAccEvents bc (applyAccEvent bc e ev) rest

/-- Number of Consume events in a sequence. -/
def consumeCount : List AccEvent → Int
  | [] => 0
  | .consumeEv _ :: rest => 1 + consumeCount rest
  | .reduceEv _ _ _ :: rest => consumeCount rest

/-- Σ (length − 1) over the fixed-encoding REDUCE events of a sequence
(a dynamic-encoding REDUCE, sentinel rule id `0xFFFF`, contributes 0). -/
def fixedReduceDebt : List AccEvent → Int
  | [] => 0
  | .consumeEv _ :: rest => fixedReduceDebt rest
  | .reduceEv i _ _ :: rest =>
    (if i &&& 0xFFFF = 0xFFFF then (0 : Int)
     else (((i >>> 16) &&& 0xFFF : Nat) : Int) - 1) + fixedReduceDebt rest

/-- An `INDEX_JUMP` table (operands at `index`, `index + 1`) encodes the
finite mapping `m` with default `dflt`: the default block sits at the
head of the table and `m` maps every discriminant inside
`[basis, basis + rows)` to its row block and nothing else. -/
def indexRepresents (bc : List Nat) (index instruction : Nat)
    (m : Int → Option Nat) (dflt : Nat) : Prop :=
  dflt = index + 2 ∧
  ∀ v : Int,
    m v =
      if ((instruction &&& 0xFFFF : Nat) : Int) ≤ v ∧
          v < ((instruction &&& 0xFFFF : Nat) : Int) +
            ((wordAt bc ((index : Int) + 1) >>> 16 : Nat) : Int) then
        some ((index + 2) +
          (v - ((instruction &&& 0xFFFF : Nat) : Int)).toNat *
            (wordAt bc ((index : Int) + 1) &&& 0xFFFF) +
          (wordAt bc ((index : Int) + 1) &&& 0xFFFF))
      else none

/-- A `HASH_JUMP` table (operands at `index`, `index + 1`) encodes the
finite mapping `m` with default `dflt` within `fuel` probe steps: the
default block is the trailing block and every probe settles on
`m`'s answer. -/
def hashRepresents (bc : List Nat) (index instruction : Nat) (fuel : Nat)
    (m : Int → Option Nat) (dflt : Nat) : Prop :=
  dflt = (index + 2 + (wordAt bc ((index : Int) + 1) &&& 0xFFFF)) +
      (instruction &&& 0xFFFF) ∧
  ∀ v : Int, hashJumpTarget bc index instruction v fuel = some ((m v).getD dflt)

/-! ## Concrete fixtures for the verified properties -/

/-- The scanner oracle that leaves the candidate token untouched. -/
def noOracle : ByteReader → Nat → KernelToken → KernelToken :=
  fun _ _ t => t

/-- The fork delegate that always reports "inconclusive". -/
def noFork : Nat → List ParseAction :=
  fun _ => []

/-- A one-word image whose sole block is a REPEAT that rewinds to itself. -/
def repeatImage : List Nat := [0xC0000001]

/-- A fresh parser-role engine on empty input whose entry block is word 0
flagged for normal mode. -/
def repeatEngine : Engine := Engine.init ⟨[], 0⟩ normal_state_mask false

/-- The driver loop never returns on `repeatImage`: the claimed universal
termination fails. -/
def repeatImageDiverges : Prop :=
  ∀ fuel, startRun repeatImage noOracle noFork (-1) fuel repeatEngine false (-1) = none

/-- A parser-role engine with accumulator 3 (dynamic-REDUCE counterexample
state). -/
def dynReduceEngine : Engine :=
  { stack := []
    reader := ⟨[], 0⟩
    tokens := [KernelToken.new, KernelToken.new]
    symbol_accumulator := 3
    production_id := -1
    SCANNER := false }

/-- A parser-role engine with accumulator 65536 = 2^16 (snapshot-masking
counterexample state). -/
def bigAccEngine : Engine :=
  { dynReduceEngine with symbol_accumulator := 65536 }

/-- A parser-role engine about to run ASSERT_CONSUME against the byte 98. -/
def assertEngine : Engine :=
  { dynReduceEngine with symbol_accumulator := 0, reader := ⟨[98], 0⟩ }

/-- The same engine over the byte 97 (the literal the instruction carries). -/
def assertEngineHit : Engine :=
  { assertEngine with reader := ⟨[97], 0⟩ }

/-- A two-word image: a dynamic REDUCE (rule-id sentinel `0xFFFF`) followed
by a RETURN that keeps `fail_mode`. -/
def dynReduceImage : List Nat := [0x4000FFFF, 0xF0000001]

/-- A debug snapshot whose pending step executes `dynReduceImage`'s block:
one normal-mode state pointer at word 0 with meta snapshot 0. -/
def dynReducePrev : DebugState :=
  { state := 0
    ACTIVE := true
    stack := [(normal_state_mask, 0)]
    tokens := [KernelToken.new, KernelToken.new]
    symbol_accumulator := 0
    production_id := -1
    fail_mode := false
    last_good_state := -1
    byte_reader := ⟨[], 0⟩
    actions := [] }

/-- A debug iterator whose leftover accumulator is `acc` (as left behind by
earlier, unrelated step calls). -/
def debugIt (acc : Int) : Engine :=
  { stack := []
    reader := ⟨[], 0⟩
    tokens := [KernelToken.new, KernelToken.new]
    symbol_accumulator := acc
    production_id := -1
    SCANNER := false }

/-- The token a parser-role `consume` shifts: the lookahead token, with its
lengths zeroed when bit 0 of the instruction is set. -/
def shiftedTok (e : Engine) (instruction : Nat) : KernelToken :=
  if instruction &&& 1 = 1 then
    { e.tokens.getD 1 KernelToken.new with codepoint_length := 0, byte_length := 0 }
  else e.tokens.getD 1 KernelToken.new

/-- A two-entry mapping fixture for the jump-table equivalence: discriminant
1 goes to block 8, everything else to the default block 5. -/
def jumpMap : Int → Option Nat :=
  fun v => if v = 1 then some 8 else none

/-- A concrete HASH_JUMP operand area at word 0 encoding `jumpMap`:
scanner pointer, table data (0 modulus bits, one cell), and the single
cell `{value 1, instruction offset 5, step 0}`. -/
def hashBC : List Nat := [0, 1, 1 ||| (5 <<< 11) ||| (512 <<< 22)]

/-- A concrete INDEX_JUMP operand area at word 3 encoding `jumpMap`:
table data `{1 row, row size 3}` at word 4, basis 1 in the instruction. -/
def idxBC : List Nat := [0, 0, 0, 0, (1 <<< 16) ||| 3]

/-- A skipped-region token fixture: two bytes of ignorable input. -/
def skipTok : KernelToken :=
  { KernelToken.new with type := skipped_scan_prod, byte_length := 2, codepoint_length := 2 }

/-- The non-skippable token fixture of type 42. -/
def xTok : KernelToken :=
  { KernelToken.new with type := 42, byte_length := 3, byte_offset := 2 }

/-- A fresh scanner-wrapper loop state at lexer entry pointer 5. -/
def scanLoop0 : ScanLoop :=
  { current := KernelToken.new
    nested_stack := [(5, 0)]
    nested_tokens := [KernelToken.new, KernelToken.new]
    ACTIVE := true }

/-- A scanner oracle fixture for SCAN_TO: resolves every probe to a token of
type 42 spanning one byte. -/
def probeOracle : ByteReader → Nat → KernelToken → KernelToken :=
  fun _ _ t => { t with type := 42, byte_length := 1, codepoint_length := 1 }

/-- An engine fixture about to run SCAN_TO over three bytes of input. -/
def scanToEngine : Engine :=
  { dynReduceEngine with symbol_accumulator := 0, reader := ⟨[97, 98, 99], 0⟩ }

/-! ## Theorems -/

/-- C2: when the execution stack is empty the driver loop emits exactly one
action — `Token` in scanner role; otherwise `Error` under fail mode;
otherwise `Accept` when a goal production was supplied and matches the
current production id, or the input cursor is exhausted at the lookahead
token's offset; otherwise `Error` — and returns. -/
theorem c2_finalize_decision (bc : List Nat)
    (oracle : ByteReader → Nat → KernelToken → KernelToken)
    (forkH : Nat → List ParseAction) (root : Int) (fuel : Nat) (e : Engine)
    (fail_mode : Bool) (last_good_state : Int) (h : e.stack = []) :
    startRun bc oracle forkH root (fuel + 1) e fail_mode last_good_state =
      some [
        if e.SCANNER then
          ParseAction.token (e.tokens.getD 0 KernelToken.new)
        else if fail_mode then
          ParseAction.error last_good_state (e.tokens.getD 1 KernelToken.new).type
            (e.tokens.getD 1 KernelToken.new).codepoint_offset
            (e.tokens.getD 1 KernelToken.new).codepoint_length e.production_id
        else if 0 ≤ root ∧ e.production_id = root then
          ParseAction.accept
        else if e.reader.offset_at_end (e.tokens.getD 1 KernelToken.new).byte_offset then
          ParseAction.accept
        else
          ParseAction.error last_good_state (e.tokens.getD 1 KernelToken.new).type
            (e.tokens.getD 1 KernelToken.new).codepoint_offset
            (e.tokens.getD 1 KernelToken.new).codepoint_length e.production_id ] := by
  simp only [startRun, h, finalizeAction]

/-- Witness for C2: a parser-role engine whose stack is empty and whose
input is exhausted finalizes with the single action `Accept`. -/
theorem c2_finalize_decision_witness :
    startRun [] noOracle noFork (-1) 1 dynReduceEngine false (-1) =
      some [ParseAction.accept] := by
  rw [c2_finalize_decision [] noOracle noFork (-1) 0 dynReduceEngine false (-1) rfl]
  decide

/-- C3: in parser role a `consume` emits `Skip` immediately before the
`Shift` exactly when the shifted token's byte offset differs from the
previous token's `byte_offset + byte_length`, and nothing else; after the
call both live tokens sit at the shifted token's end, so successive
shifts advance through the input in order. -/
theorem c3_shift_skip (e : Engine) (instruction : Nat) (h : e.SCANNER = false)
    (hlen : 2 ≤ e.tokens.length) :
    ((consume e instruction).2 =
      if (e.tokens.getD 0 KernelToken.new).byte_offset +
          (e.tokens.getD 0 KernelToken.new).byte_length ≠
          (shiftedTok e instruction).byte_offset then
        [ParseAction.skip (e.tokens.getD 0 KernelToken.new).codepoint_offset
          (((shiftedTok e instruction).codepoint_offset : Int) -
            (((e.tokens.getD 0 KernelToken.new).codepoint_length : Int) +
              ((e.tokens.getD 0 KernelToken.new).codepoint_offset : Int)))
          (e.tokens.getD 0 KernelToken.new).line_number 0,
         ParseAction.shift (shiftedTok e instruction)]
      else [ParseAction.shift (shiftedTok e instruction)])
    ∧ ((consume e instruction).1.tokens.getD 1 KernelToken.new).byte_offset =
        (shiftedTok e instruction).byte_offset + (shiftedTok e instruction).byte_length
    ∧ (consume e instruction).1.tokens.getD 0 KernelToken.new =
        (consume e instruction).1.tokens.getD 1 KernelToken.new := by
  obtain ⟨st, rd, toks, acc, pid, sc⟩ := e
  simp only at h hlen ⊢
  subst h
  match toks, hlen with
  | t0 :: t1 :: rest, _ =>
    simp only [consume, emitShift, shiftedTok]
    constructor
    · split <;> simp_all [List.getD]
    · constructor <;> split <;> simp_all [List.getD]

/-- Witness for C3: concrete parser-role consume of a non-contiguous
lookahead token (previous token ends at 0, lookahead starts at 2) emits
`Skip` then `Shift`. -/
theorem c3_shift_skip_witness :
    (consume { dynReduceEngine with tokens := [KernelToken.new, xTok] } 0).2 =
      [ParseAction.skip 0 0 0 0,
       ParseAction.shift xTok] := by
  have h := c3_shift_skip { dynReduceEngine with tokens := [KernelToken.new, xTok] } 0
    (by decide) (by decide)
  rw [h.1]
  decide

/-- A parser-role `consume` adds exactly 1 to the symbol accumulator and
keeps the role flag. -/
theorem consume_symbol_accumulator (e : Engine) (i : Nat) (h : e.SCANNER = false) :
    (consume e i).1.symbol_accumulator = e.symbol_accumulator + 1 ∧
      (consume e i).1.SCANNER = false := by
  simp [consume, emitShift, h]

/-- A `reduce` subtracts `length − 1` from the symbol accumulator in the
fixed encoding and leaves it unchanged in the dynamic encoding, keeping
the role flag. -/
theorem reduce_symbol_accumulator (bc : List Nat) (e : Engine) (i idx : Nat)
    (r : Int) :
    (reduce bc e i idx r).1.symbol_accumulator =
      e.symbol_accumulator -
        (if i &&& 0xFFFF = 0xFFFF then (0 : Int)
         else (((i >>> 16) &&& 0xFFF : Nat) : Int) - 1) ∧
      (reduce bc e i idx r).1.SCANNER = e.SCANNER := by
  simp only [reduce]
  split <;> split <;> simp_all [Nat.and_assoc]

/-- C4 (amended): in parser role the symbol accumulator is changed only by
consumes (+1) and fixed-encoding reduces (−(length − 1)); a
dynamic-encoding reduce leaves it unchanged.  Hence after any sequence of
Consume/Reduce events with no intervening GOTO the accumulator equals its
starting value plus the number of consumes minus Σ (length − 1) over the
fixed-encoding reduces. -/
theorem c4_accumulator (bc : List Nat) (e : Engine) (evs : List AccEvent)
    (h : e.SCANNER = false) :
    (applyAccEvents bc e evs).symbol_accumulator =
      e.symbol_accumulator + consumeCount evs - fixedReduceDebt evs := by
  induction evs generalizing e with
  | nil => simp [applyAccEvents, consumeCount, fixedReduceDebt]
  | cons ev rest ih =>
    cases ev with
    | consumeEv i =>
      have hc := consume_symbol_accumulator e i h
      have := ih (consume e i).1 hc.2
      simp only [applyAccEvents, applyAccEvent, consumeCount, fixedReduceDebt]
      rw [this, hc.1]
      ring
    | reduceEv i idx r =>
      have hr := reduce_symbol_accumulator bc e i idx r
      have hsc : (reduce bc e i idx r).1.SCANNER = false := by rw [hr.2, h]
      have := ih (reduce bc e i idx r).1 hsc
      simp only [applyAccEvents, applyAccEvent, consumeCount, fixedReduceDebt]
      rw [this, hr.1]
      ring

/-- Witness for C4: one consume then one fixed reduce of length 2 takes the
accumulator of `dynReduceEngine` from 3 to 3 + 1 − (2 − 1) = 3. -/
theorem c4_accumulator_witness :
    (applyAccEvents [] dynReduceEngine
      [AccEvent.consumeEv 0, AccEvent.reduceEv 0x40020000 0 0]).symbol_accumulator =
      3 + 1 - 1 := by
  rw [c4_accumulator [] dynReduceEngine
    [AccEvent.consumeEv 0, AccEvent.reduceEv 0x40020000 0 0] (by decide)]
  decide

/-- Counterexample for C4 as stated: a dynamic-encoding REDUCE (sentinel
rule id) with accumulator 3 and snapshot 0 emits `Reduce{length 3}` yet
leaves the accumulator at 3, not at 3 − (3 − 1) = 1 as the claim's
uniform −(length − 1) adjustment would require. -/
theorem c4_accumulator_counterexample :
    (reduce [] dynReduceEngine 0x4000FFFF 0 0).2.1 =
        [ParseAction.reduce 0 3 (-1)] ∧
      (reduce [] dynReduceEngine 0x4000FFFF 0 0).1.symbol_accumulator = 3 ∧
      ¬ ((3 : Int) = 3 - (3 - 1)) := by
  decide

/-- Every goto-chain entry carries the accumulator snapshot `a`. -/
theorem gotoChain_meta (bc : List Nat) (a : Int) :
    ∀ fuel index p, p ∈ (gotoChain bc a fuel index).1 → p.2 = a := by
  intro fuel
  induction fuel with
  | zero => intro index p hp; simp [gotoChain] at hp
  | succ n ih =>
    intro index p hp
    rw [gotoChain] at hp
    split at hp
    · rcases List.mem_cons.mp hp with h | h
      · rw [h]
      · exact ih (index + 1) p h
    · simp at hp

/-- C5 (amended): a dynamic-encoding REDUCE emits length
`symbol_accumulator − (snapshot mod 2^16)` — the engine reads only the
low 16 bits of the popped meta slot —, coinciding with the claimed
`symbol_accumulator − snapshot` exactly when the snapshot is in
`[0, 2^16)`; after any REDUCE a following SET_PRODUCTION-tagged word is
consumed inline, setting the production id before the next instruction;
and every stack entry newly pushed by a GOTO carries the current
accumulator as its snapshot. -/
theorem c5_dynamic_reduce (bc : List Nat) (e : Engine)
    (instruction index : Nat) (recover : Int) (instruction2 : Nat)
    (gi gidx : Nat) (hdyn : instruction &&& 0xFFFF = 0xFFFF) :
    (reduce bc e instruction index recover).2.1 =
        [ParseAction.reduce ((instruction >>> 16) &&& 0xFFF)
          (e.symbol_accumulator - low16 recover) e.production_id] ∧
      (0 ≤ recover → recover < 65536 → low16 recover = recover) ∧
      (wordAt bc (index : Int) &&& 0xF0000000 = 0x30000000 →
        (reduce bc e instruction2 index recover).2.2 = index + 1 ∧
        (reduce bc e instruction2 index recover).1.production_id =
          ((wordAt bc (index : Int) &&& 0xFFFFFFF : Nat) : Int)) ∧
      (∀ p ∈ (goto bc e gi gidx).1.stack, p ∉ e.stack →
        p.2 = e.symbol_accumulator) := by
  refine ⟨?_, ?_, ?_, ?_⟩
  · have hb : instruction &&& 0xFFFF &&& 0xFFFF = 0xFFFF := by
      rw [Nat.and_assoc]
      simpa using hdyn
    simp only [reduce, emitReduce, hb, if_true]
    split <;> simp
  · intro h0 h1
    exact Int.emod_eq_of_lt h0 h1
  · intro htag
    simp only [reduce]
    rw [if_pos htag]
    split <;> simp
  · intro p hp hnot
    simp only [goto] at hp
    rcases List.mem_append.mp hp with h | h
    · exact gotoChain_meta bc e.symbol_accumulator (bc.length + 1) gidx p
        (List.mem_reverse.mp h)
    · rcases List.mem_cons.mp h with h' | h'
      · rw [h']
      · exact absurd h' hnot

/-- Witness for C5: with accumulator 3 and popped snapshot 2 the dynamic
REDUCE `0x4000FFFF` emits length 3 − 2 = 1; the goto `0x20000000`
pushes snapshot 3; and a SET_PRODUCTION word `0x30000007` after a REDUCE
is consumed inline, setting production 7. -/
theorem c5_dynamic_reduce_witness :
    (reduce [0x30000007] dynReduceEngine 0x4000FFFF 0 2).2.1 =
        [ParseAction.reduce 0 1 (-1)] ∧
      (reduce [0x30000007] dynReduceEngine 0x4000FFFF 0 2).2.2 = 1 ∧
      (reduce [0x30000007] dynReduceEngine 0x4000FFFF 0 2).1.production_id = 7 ∧
      ∀ p ∈ (goto [0x30000007] dynReduceEngine 0x20000000 1).1.stack,
        p ∉ dynReduceEngine.stack → p.2 = 3 := by
  have h := c5_dynamic_reduce [0x30000007] dynReduceEngine 0x4000FFFF 0 2
    0x4000FFFF 0x20000000 1 (by decide)
  refine ⟨?_, (h.2.2.1 (by decide)).1, (h.2.2.1 (by decide)).2, h.2.2.2⟩
  rw [h.1]
  decide

/-- Counterexample for C5 as stated: a GOTO at accumulator 65536 pushes the
snapshot 65536, yet a dynamic REDUCE popping that snapshot emits length
65536 − (65536 mod 2^16) = 65536, not the claimed
`symbol_accumulator − snapshot` = 0. -/
theorem c5_dynamic_reduce_counterexample :
    (goto [] bigAccEngine 0x20000000 0).1.stack = [(0x20000000, 65536)] ∧
      (reduce [] bigAccEngine 0x4000FFFF 0 65536).2.1 =
        [ParseAction.reduce 0 65536 (-1)] ∧
      ¬ ((65536 : Int) = 65536 - 65536) := by
  decide

/-- C7 (amended): ASSERT_CONSUME compares the upcoming input's class,
codepoint, or byte (selected by its mode bits) against the inline
literal; on mismatch it transfers control to the absolute bytecode word
index 2 without advancing the reader and without emitting anything; on
match it consumes the compared span — advancing the reader by the byte
length recorded from the reader (1 for byte mode) — and continues with
the next instruction. -/
theorem c7_assert_consume (e : Engine) (index instruction : Nat)
    (hlen : 2 ≤ e.tokens.length) :
    (instruction &&& 0x0F000000 = 0x00000000 →
      (instruction &&& 0x00FFFFFF ≠ e.reader.cls →
        (assert_consume e index instruction).2.2 = 2 ∧
        (assert_consume e index instruction).1.reader = e.reader ∧
        (assert_consume e index instruction).2.1 = []) ∧
      (instruction &&& 0x00FFFFFF = e.reader.cls →
        (assert_consume e index instruction).2.2 = index ∧
        (assert_consume e index instruction).1.reader =
          e.reader.next e.reader.codepoint_byte_length)) ∧
    (instruction &&& 0x0F000000 = 0x01000000 →
      (instruction &&& 0x00FFFFFF ≠ e.reader.codepoint →
        (assert_consume e index instruction).2.2 = 2 ∧
        (assert_consume e index instruction).1.reader = e.reader ∧
        (assert_consume e index instruction).2.1 = []) ∧
      (instruction &&& 0x00FFFFFF = e.reader.codepoint →
        (assert_consume e index instruction).2.2 = index ∧
        (assert_consume e index instruction).1.reader =
          e.reader.next e.reader.codepoint_byte_length)) ∧
    (instruction &&& 0x0F000000 = 0x02000000 →
      (instruction &&& 0x00FFFFFF ≠ e.reader.byte →
        (assert_consume e index instruction).2.2 = 2 ∧
        (assert_consume e index instruction).1.reader = e.reader ∧
        (assert_consume e index instruction).2.1 = []) ∧
      (instruction &&& 0x00FFFFFF = e.reader.byte →
        (assert_consume e index instruction).2.2 = index ∧
        (assert_consume e index instruction).1.reader = e.reader.next 1)) := by
  obtain ⟨st, rd, toks, acc, pid, sc⟩ := e
  match toks, hlen with
  | t0 :: t1 :: rest, _ =>
    refine ⟨fun hm => ⟨fun hne => ?_, fun heq => ?_⟩,
      fun hm => ⟨fun hne => ?_, fun heq => ?_⟩,
      fun hm => ⟨fun hne => ?_, fun heq => ?_⟩⟩ <;>
      simp_all [assert_consume, consume, emitShift, List.getD] <;>
      cases sc <;>
      simp_all [assert_consume, consume, emitShift, List.getD]

/-- Witness for C7: byte mode (mode bits `0x02`) against input byte 98 with
literal 97 jumps to word 2 leaving the reader in place; against input
byte 97 it consumes one byte and continues at the next instruction. -/
theorem c7_assert_consume_witness :
    ((assert_consume assertEngine 6 0x02000061).2.2 = 2 ∧
      (assert_consume assertEngine 6 0x02000061).1.reader = assertEngine.reader ∧
      (assert_consume assertEngine 6 0x02000061).2.1 = []) ∧
    ((assert_consume assertEngineHit 6 0x02000061).2.2 = 6 ∧
      (assert_consume assertEngineHit 6 0x02000061).1.reader =
        assertEngineHit.reader.next 1) := by
  constructor
  · exact (c7_assert_consume assertEngine 6 0x02000061 (by decide)).2.2
      (by decide) |>.1 (by decide)
  · exact (c7_assert_consume assertEngineHit 6 0x02000061 (by decide)).2.2
      (by decide) |>.2 (by decide)

/-- Counterexample for C7 as stated: with the ASSERT_CONSUME at word 5 (so
the operand words would end at word 8), a byte-mode mismatch continues at
the absolute word 2, not at 6 + 2 = 8 as "skip the following 2 operand
words" would require; and on a match the reader advances by 1 byte, so
the consume is not zero-length. -/
theorem c7_assert_consume_counterexample :
    ((assert_consume assertEngine 6 0x02000061).2.2 = 2 ∧ ¬ (2 = 6 + 2)) ∧
      ((assert_consume assertEngineHit 6 0x02000061).1.reader.cursor = 1 ∧
        ¬ ((1 : Nat) = 0)) := by
  decide

/-- C6: for every discriminant value, an INDEX_JUMP table and a HASH_JUMP
table encoding the same mapping from discriminant values to target
blocks, with the same default block, transfer control to the same
outcome: the matching entry's block when the value is in the mapping and
the default block otherwise. -/
theorem c6_jump_equivalence (bch bci : List Nat) (ih ii insh insi fuel : Nat)
    (m : Int → Option Nat) (dflt : Nat)
    (hh : hashRepresents bch ih insh fuel m dflt)
    (hi : indexRepresents bci ii insi m dflt) (v : Int) :
    hashJumpTarget bch ih insh v fuel = some (indexJumpTarget bci ii insi v) := by
  rw [hh.2 v, hi.2 v]
  congr 1
  by_cases hc : ((insi &&& 0xFFFF : Nat) : Int) ≤ v ∧
      v < ((insi &&& 0xFFFF : Nat) : Int) +
        ((wordAt bci ((ii : Int) + 1) >>> 16 : Nat) : Int)
  · rw [if_pos hc]
    simp only [Option.getD_some, indexJumpTarget]
    rw [if_pos (by constructor <;> omega)]
  · rw [if_neg hc]
    simp only [Option.getD_none, indexJumpTarget]
    rw [hi.1]
    rw [if_neg (by intro hcon; exact hc (by constructor <;> omega))]

/-- The concrete hash table `hashBC` encodes `jumpMap` with default 5. -/
theorem hashBC_encodes : hashRepresents hashBC 0 2 2 jumpMap 5 := by
  refine ⟨by decide, fun v => ?_⟩
  have h1 : (2 : Nat) &&& 65535 = 2 := by decide
  have h2 : (1 : Nat) >>> 16 &&& 65535 = 0 := by decide
  simp only [hashJumpTarget, hashBC, wordAt]
  norm_num [h1, h2]
  have h0 : v.emod 1 = 0 := Int.emod_one v
  rw [h0]
  have hcell : wordAt [0, 1, 1 ||| 5 <<< 11 ||| 512 <<< 22] (((2 : Nat) : Int) + 0) =
      1 ||| 5 <<< 11 ||| 512 <<< 22 := by decide
  have hval : (1 ||| 5 <<< 11 ||| 512 <<< 22) &&& 2047 = 1 := by decide
  have hoff : ((1 ||| 5 <<< 11 ||| 512 <<< 22) >>> 11) &&& 2047 = 5 := by decide
  have hnext : ((1 ||| 5 <<< 11 ||| 512 <<< 22) >>> 22) &&& 1023 = 512 := by decide
  simp only [hashProbe, hcell, hval, hoff, hnext]
  norm_num
  by_cases hv : (1 : Int) = v
  · rw [if_pos hv, ← hv]
    simp [jumpMap]
  · rw [if_neg hv]
    have : jumpMap v = none := by
      simp only [jumpMap]
      rw [if_neg (by omega)]
    rw [this]
    rfl

/-- The concrete dense table `idxBC` encodes `jumpMap` with default 5. -/
theorem idxBC_encodes : indexRepresents idxBC 3 1 jumpMap 5 := by
  refine ⟨by decide, fun v => ?_⟩
  have hrows : wordAt idxBC (((3 : Nat) : Int) + 1) >>> 16 = 1 := by decide
  have hrs : wordAt idxBC (((3 : Nat) : Int) + 1) &&& 0xFFFF = 3 := by decide
  have hbasis : (1 : Nat) &&& 0xFFFF = 1 := by decide
  simp only [jumpMap, hrows, hrs, hbasis]
  by_cases hv : v = 1
  · subst hv
    norm_num
  · rw [if_neg hv, if_neg (by push_cast; omega)]

/-- Witness for C6: the two concrete tables encode the same mapping and, at
discriminant 7, both dispatch to the shared default block 5. -/
theorem c6_jump_equivalence_witness :
    hashRepresents hashBC 0 2 2 jumpMap 5 ∧
      indexRepresents idxBC 3 1 jumpMap 5 ∧
      hashJumpTarget hashBC 0 2 7 2 = some (indexJumpTarget idxBC 3 1 7) :=
  ⟨hashBC_encodes, idxBC_encodes,
    c6_jump_equivalence hashBC idxBC 0 3 2 1 2 jumpMap 5 hashBC_encodes
      idxBC_encodes 7⟩

/-- C8: when the nested scanner sessions produce a run of sentinel
(skipped-type) tokens followed by a token of type `X`, the wrapper yields
exactly one resolved token, of type `X`, whose byte offset is the start
of the region advanced past the whole skipped span; and on every
sentinel token the nested engine's stack is reset to its entry
pointer. -/
theorem c8_scanner_skips (scanner_start_pointer : Nat) (skips : List KernelToken)
    (x : KernelToken) (st0 : ScanLoop) (hactive : st0.ACTIVE = true)
    (hskip : ∀ t ∈ skips, t.type = skipped_scan_prod)
    (hx : x.type ≠ skipped_scan_prod) :
    (∃ stf, scannerResolve scanner_start_pointer (skips ++ [x]) st0 = some stf ∧
        stf.current.type = x.type ∧
        stf.current.byte_offset =
          st0.current.byte_offset + (skips.map KernelToken.byte_length).sum ∧
        stf.ACTIVE = false) ∧
      ∀ st : ScanLoop, ∀ t : KernelToken, t.type = skipped_scan_prod →
        (handleScanToken scanner_start_pointer st t).nested_stack =
          [(scanner_start_pointer, 0)] := by
  constructor
  · induction skips generalizing st0 with
    | nil =>
      refine ⟨handleScanToken scanner_start_pointer st0 x, ?_, ?_, ?_, ?_⟩ <;>
        simp [scannerResolve, handleScanToken, hactive, hx]
    | cons t rest ih =>
      have ht : t.type = skipped_scan_prod := hskip t (by simp)
      have hrest : ∀ u ∈ rest, u.type = skipped_scan_prod :=
        fun u hu => hskip u (by simp [hu])
      have hstep :
          scannerResolve scanner_start_pointer ((t :: rest) ++ [x]) st0 =
            scannerResolve scanner_start_pointer (rest ++ [x])
              (handleScanToken scanner_start_pointer st0 t) := by
        simp [scannerResolve, hactive]
      obtain ⟨stf, h1, h2, h3, h4⟩ :=
        ih (handleScanToken scanner_start_pointer st0 t)
          (by simp [handleScanToken, ht, hactive]) hrest
      refine ⟨stf, by rw [hstep]; exact h1, h2, ?_, h4⟩
      rw [h3]
      simp [handleScanToken, ht]
      ring
  · intro st t ht
    simp [handleScanToken, ht]

/-- Witness for C8: one two-byte skipped token then the type-42 token
resolves to a single type-42 token whose byte offset 2 is the end of the
skipped region. -/
theorem c8_scanner_skips_witness :
    (∃ stf, scannerResolve 5 ([skipTok] ++ [xTok]) scanLoop0 = some stf ∧
        stf.current.type = xTok.type ∧
        stf.current.byte_offset =
          scanLoop0.current.byte_offset +
            ([skipTok].map KernelToken.byte_length).sum ∧
        stf.ACTIVE = false) ∧
      ∀ st : ScanLoop, ∀ t : KernelToken, t.type = skipped_scan_prod →
        (handleScanToken 5 st t).nested_stack = [(5, 0)] :=
  c8_scanner_skips 5 [skipTok] xTok scanLoop0 (by decide)
    (by intro t ht; simp at ht; rw [ht]; decide) (by decide)

/-- C9 (code bug): stepping the same prior snapshot is not deterministic.
`next_state` restores reader, production id, tokens and stack from the
snapshot but not `symbol_accumulator` (and records −1 for it in every
snapshot), so a step that executes a dynamic-length REDUCE emits a
`Reduce` whose length depends on the iterator's leftover accumulator:
stepping `dynReducePrev` on an iterator with leftover accumulator 0
emits `Reduce{length 0}`, on one with leftover accumulator 1 it emits
`Reduce{length 1}`. -/
theorem c9_next_state_not_deterministic :
    (next_state dynReduceImage noOracle noFork (debugIt 0) dynReducePrev (-1) 4).map
        (fun r => r.2.actions) = some [ParseAction.reduce 0 0 (-1)] ∧
      (next_state dynReduceImage noOracle noFork (debugIt 1) dynReducePrev (-1) 4).map
        (fun r => r.2.actions) = some [ParseAction.reduce 0 1 (-1)] ∧
      ¬ ([ParseAction.reduce 0 0 (-1)] = [ParseAction.reduce 0 1 (-1)]) ∧
      (debugIt 0).stack = (debugIt 1).stack ∧
      (debugIt 0).reader = (debugIt 1).reader ∧
      (debugIt 0).tokens = (debugIt 1).tokens ∧
      (debugIt 0).production_id = (debugIt 1).production_id := by
  decide

/-- When the scanner oracle never resolves a target-matching token and never
moves the probe backwards, the SCAN_TO loop reaches the end of input and
reports exhaustion. -/
theorem scanToLoop_exhausts (bc : List Nat)
    (oracle : ByteReader → Nat → KernelToken → KernelToken) (reader : ByteReader)
    (si start fin : Nat)
    (hnm : ∀ t, matchesTargets bc start fin (oracle reader si t).type = false)
    (hmono : ∀ t, t.byte_offset ≤ (oracle reader si t).byte_offset) :
    ∀ fuel temp, reader.input.length ≤ temp.byte_offset + fuel →
      scanToLoop bc oracle reader si start fin (fuel + 1) temp = some none := by
  intro fuel
  induction fuel with
  | zero =>
    intro temp hf
    have hend : reader.offset_at_end (oracle reader si temp).byte_offset = true := by
      simp only [ByteReader.offset_at_end, decide_eq_true_eq]
      have := hmono temp
      omega
    simp [scanToLoop, hnm, hend]
  | succ n ih =>
    intro temp hf
    by_cases hend : reader.input.length ≤ (oracle reader si temp).byte_offset
    · have hend' : reader.offset_at_end (oracle reader si temp).byte_offset = true := by
        simp only [ByteReader.offset_at_end, decide_eq_true_eq]
        exact hend
      simp [scanToLoop, hnm, hend']
    · have hend' : reader.offset_at_end (oracle reader si temp).byte_offset = false := by
        simp only [ByteReader.offset_at_end, decide_eq_false_iff_not]
        omega
      have hmt := hmono temp
      rw [scanToLoop]
      simp only [hnm, hend', Bool.false_eq_true, if_false]
      split
      · rename_i hbl
        exact ih
          { oracle reader si temp with
            byte_offset :=
              (oracle reader si temp).byte_offset + (oracle reader si temp).byte_length
            codepoint_offset :=
              (oracle reader si temp).codepoint_offset +
                (oracle reader si temp).codepoint_offset
            byte_length := 0
            codepoint_length := 0 }
          (by
            show reader.input.length ≤
              (oracle reader si temp).byte_offset +
                (oracle reader si temp).byte_length + n
            omega)
      · rename_i hbl
        exact ih
          { oracle reader si temp with
            byte_offset := (oracle reader si temp).byte_offset + 1
            codepoint_offset := (oracle reader si temp).codepoint_offset + 1
            byte_length := 0
            codepoint_length := 0 }
          (by
            show reader.input.length ≤ (oracle reader si temp).byte_offset + 1 + n
            omega)

/-- C10: when a SCAN_TO exhausts the input without the resolved token type
ever matching an id in its inline target list, execution continues at the
absolute bytecode word index 1 — a fixed built-in block, not the word
following the inline table — and the engine (in particular the lookahead
token `tokens[1]`) is returned untouched. -/
theorem c10_scan_to_exhaustion (bc : List Nat)
    (oracle : ByteReader → Nat → KernelToken → KernelToken) (e : Engine)
    (index instruction fuel : Nat)
    (hnm : ∀ r t, matchesTargets bc (index + 1)
        (index + 1 + (instruction &&& 0xFFFF))
        ((oracle r (wordAt bc (index : Int)) t)).type = false)
    (hmono : ∀ r t, t.byte_offset ≤ (oracle r (wordAt bc (index : Int)) t).byte_offset)
    (hfuel : e.reader.input.length ≤ fuel) (hidx : 1 ≤ index) :
    scan_to bc oracle e index instruction (fuel + 1) = some (e, 1) ∧
      index + 1 + (instruction &&& 0xFFFF) ≠ 1 := by
  refine ⟨?_, by omega⟩
  simp only [scan_to]
  rw [scanToLoop_exhausts bc oracle e.reader (wordAt bc (index : Int)) (index + 1)
    (index + 1 + (instruction &&& 0xFFFF)) (hnm e.reader) (hmono e.reader) fuel _
    (by omega)]

/-- Witness for C10: a SCAN_TO at word 1 with inline target 7 over a
three-byte input, with a scanner oracle that always resolves type 42,
exhausts the input and continues at word 1 with the engine untouched. -/
theorem c10_scan_to_exhaustion_witness :
    scan_to [0x70000001, 9, 7] probeOracle scanToEngine 1 0x70000001 (3 + 1) =
        some (scanToEngine, 1) ∧
      1 + 1 + (0x70000001 &&& 0xFFFF) ≠ 1 :=
  c10_scan_to_exhaustion [0x70000001, 9, 7] probeOracle scanToEngine 1 0x70000001 3
    (by
      intro r t
      exact (by decide : matchesTargets [0x70000001, 9, 7] 2 3 42 = false))
    (by intro r t; exact Nat.le_refl _)
    (by decide) (by decide)

/-- `emitShift` emits no terminal action. -/
theorem emitShift_no_terminal (e : Engine) :
    ∀ a ∈ (emitShift e).2, a.isTerminal = false := by
  intro a ha
  simp only [emitShift] at ha
  split at ha
  · rcases List.mem_cons.mp ha with h | h
    · rw [h]; rfl
    · rcases List.mem_cons.mp h with h' | h'
      · rw [h']; rfl
      · simp at h'
  · rcases List.mem_cons.mp ha with h | h
    · rw [h]; rfl
    · simp at h

/-- `consume` emits no terminal action. -/
theorem consume_no_terminal (e : Engine) (i : Nat) :
    ∀ a ∈ (consume e i).2, a.isTerminal = false := by
  intro a ha
  simp only [consume] at ha
  split at ha
  · simp at ha
  · exact emitShift_no_terminal _ a ha

/-- `reduce` emits no terminal action. -/
theorem reduce_no_terminal (bc : List Nat) (e : Engine) (i idx : Nat) (r : Int) :
    ∀ a ∈ (reduce bc e i idx r).2.1, a.isTerminal = false := by
  intro a ha
  simp only [reduce, emitReduce] at ha
  split at ha <;> split at ha <;> simp at ha <;> rw [ha] <;> rfl

/-- `set_token` emits no terminal action. -/
theorem set_token_no_terminal (e : Engine) (i idx : Nat) :
    ∀ a ∈ (set_token e i idx).2.1, a.isTerminal = false := by
  intro a ha
  simp only [set_token] at ha
  split at ha <;> split at ha <;>
    first
      | exact consume_no_terminal _ _ a ha
      | simp at ha

/-- `assert_consume` emits no terminal action. -/
theorem assert_consume_no_terminal (e : Engine) (idx i : Nat) :
    ∀ a ∈ (assert_consume e idx i).2.1, a.isTerminal = false := by
  intro a ha
  simp only [assert_consume] at ha
  repeat' split at ha
  all_goals
    first
      | exact consume_no_terminal _ _ a ha
      | simp at ha

/-- `fork` replays only what the delegate supplies. -/
theorem forkInstr_no_terminal (forkH : Nat → List ParseAction) (e : Engine)
    (idx : Nat) (hfork : ∀ p a, a ∈ forkH p → a.isTerminal = false) :
    ∀ a ∈ (forkInstr forkH e idx).2.1, a.isTerminal = false := by
  intro a ha
  simp only [forkInstr] at ha
  split at ha
  · exact hfork _ a ha
  · simp at ha

/-- An instruction block emits no terminal action (provided the fork
delegate supplies none): terminal actions can only come from the
driver's finalize step. -/
theorem instrLoop_no_terminal (bc : List Nat)
    (oracle : ByteReader → Nat → KernelToken → KernelToken)
    (forkH : Nat → List ParseAction)
    (hfork : ∀ p a, a ∈ forkH p → a.isTerminal = false) :
    ∀ fuel e idx rd fm r,
      instrLoop bc oracle forkH fuel e idx rd fm = some r →
      ∀ a ∈ r.2.1, a.isTerminal = false := by
  intro fuel
  induction fuel with
  | zero => intro e idx rd fm r h; simp [instrLoop] at h
  | succ n ih =>
    intro e idx rd fm r h
    rw [instrLoop] at h
    split at h
    · rcases Option.map_eq_some'.mp h with ⟨r', hr', hfr⟩
      subst hfr
      intro a ha
      rcases List.mem_append.mp ha with hc | hc
      · exact consume_no_terminal _ _ a hc
      · exact ih _ _ _ _ _ hr' a hc
    · exact ih _ _ _ _ _ h
    · exact ih _ _ _ _ _ h
    · rcases Option.map_eq_some'.mp h with ⟨r', hr', hfr⟩
      subst hfr
      intro a ha
      rcases List.mem_append.mp ha with hc | hc
      · exact reduce_no_terminal _ _ _ _ _ a hc
      · exact ih _ _ _ _ _ hr' a hc
    · rcases Option.map_eq_some'.mp h with ⟨r', hr', hfr⟩
      subst hfr
      intro a ha
      rcases List.mem_append.mp ha with hc | hc
      · exact set_token_no_terminal _ _ _ a hc
      · exact ih _ _ _ _ _ hr' a hc
    · rcases Option.map_eq_some'.mp h with ⟨r', hr', hfr⟩
      subst hfr
      intro a ha
      rcases List.mem_append.mp ha with hc | hc
      · exact forkInstr_no_terminal _ _ _ hfork a hc
      · exact ih _ _ _ _ _ hr' a hc
    · split at h
      · simp at h
      · exact ih _ _ _ _ _ h
    · exact ih _ _ _ _ _ h
    · exact ih _ _ _ _ _ h
    · split at h
      · simp at h
      · exact ih _ _ _ _ _ h
    · exact ih _ _ _ _ _ h
    · exact ih _ _ _ _ _ h
    · exact ih _ _ _ _ _ h
    · rcases Option.map_eq_some'.mp h with ⟨r', hr', hfr⟩
      subst hfr
      intro a ha
      rcases List.mem_append.mp ha with hc | hc
      · exact assert_consume_no_terminal _ _ _ a hc
      · exact ih _ _ _ _ _ hr' a hc
    · cases h
      intro a ha
      simp at ha
    · cases h
      intro a ha
      simp at ha

/-- The finalize action is always terminal. -/
theorem finalizeAction_isTerminal (e : Engine) (fm : Bool) (lgs root : Int) :
    (finalizeAction e fm lgs root).isTerminal = true := by
  simp only [finalizeAction]
  split_ifs <;> rfl

/-- C1 (amended): whenever the driver loop returns (the execution stack
empties within the available fuel) and the fork delegate supplies no
terminal actions, the emitted trace contains exactly one terminal
ParseAction (`Accept`/`Error`, `Token` in the scanner role) and it is the
last action of the session.  (Termination itself does not hold for every
image following the opcode table: see the REPEAT divergence
counterexample.) -/
theorem c1_one_terminal_last (bc : List Nat)
    (oracle : ByteReader → Nat → KernelToken → KernelToken)
    (forkH : Nat → List ParseAction) (root : Int)
    (hfork : ∀ p a, a ∈ forkH p → a.isTerminal = false) :
    ∀ fuel e fm lgs acts,
      startRun bc oracle forkH root fuel e fm lgs = some acts →
      oneTerminalLast acts := by
  intro fuel
  induction fuel with
  | zero => intro e fm lgs acts h; simp [startRun] at h
  | succ n ih =>
    intro e fm lgs acts h
    rw [startRun] at h
    split at h
    · cases h
      exact ⟨[], _, rfl, finalizeAction_isTerminal _ _ _ _, by simp⟩
    · rename_i state meta rest hstack
      by_cases hst : state > 0
      · rw [if_pos hst] at h
        by_cases hgate :
            state &&& (normal_state_mask <<< (if fm then 1 else 0)) ≠ 0
        · rw [if_pos hgate] at h
          rcases hr : instrLoop bc oracle forkH n { e with stack := rest }
              (state &&& state_index_mask) meta fm with _ | r
          · rw [hr] at h
            simp at h
          · rw [hr] at h
            rcases Option.map_eq_some'.mp h with ⟨tailacts, htail, hfr⟩
            subst hfr
            obtain ⟨body, t, hb, ht, hbt⟩ := ih _ _ _ _ htail
            refine ⟨r.2.1 ++ body, t, ?_, ht, ?_⟩
            · rw [hb, List.append_assoc]
            · intro a ha
              rcases List.mem_append.mp ha with hc | hc
              · exact instrLoop_no_terminal bc oracle forkH hfork _ _ _ _ _ _ hr a hc
              · exact hbt a hc
        · rw [if_neg hgate] at h
          exact ih _ _ _ _ h
      · rw [if_neg hst] at h
        exact ih _ _ _ _ h

/-- Witness for C1: on empty bytecode with an empty stack the driver loop
returns the singleton trace `[Accept]`, which has exactly one terminal
action, in last position. -/
theorem c1_one_terminal_last_witness :
    oneTerminalLast [ParseAction.accept] :=
  c1_one_terminal_last [] noOracle noFork (-1)
    (by intro p a ha; simp [noFork] at ha)
    1 dynReduceEngine false (-1) [ParseAction.accept] (by decide)

/-- The one-instruction REPEAT block never hands control back to the driver
loop. -/
theorem repeat_instrLoop_none :
    ∀ fuel e rd fm, instrLoop repeatImage noOracle noFork fuel e 0 rd fm = none := by
  intro fuel
  induction fuel with
  | zero => intro e rd fm; rfl
  | succ n ih =>
    intro e rd fm
    show instrLoop repeatImage noOracle noFork n e 0 rd fm = none
    exact ih e rd fm

/-- Counterexample for C1 as stated: the image `[REPEAT 1]` — a bytecode
image following the opcode table — makes `start` loop forever on empty
input: the driver loop yields no result for any amount of fuel. -/
theorem c1_counterexample_diverges : repeatImageDiverges := by
  intro fuel
  cases fuel with
  | zero => rfl
  | succ n =>
    have h := repeat_instrLoop_none n { repeatEngine with stack := [] } 0 false
    show (match instrLoop repeatImage noOracle noFork n
        { repeatEngine with stack := [] } 0 0 false with
      | none => none
      | some r =>
        (startRun repeatImage noOracle noFork (-1) n r.1 r.2.2
          ((normal_state_mask : Nat) : Int)).map (fun acts => r.2.1 ++ acts)) = none
    rw [h]

end Radlr
